import Mathlib

set_option maxRecDepth 1000000

namespace HrAgent

/-! Shallow embedding of the orchestration core of the hr_agent repository:
the free/busy scan of `FindFreeSlotsTool._run` (app/tools/calendar_search.py),
the dispatcher `call_tool` and the control tool `call_create_pending_interview`
(app/agent.py), the approval endpoint `approve_interview` (app/main.py), and
the approval workflow `run_approval_workflow` (app/agent.py).

Timestamps are modelled as integer minutes on a single UTC timeline: a datetime
value `t` lies on day `t / 1440` at clock hour `(t % 1440) / 60`.  `/` and `%`
on `Int` agree with Python floor division for the positive divisors used here. -/

/-- A busy interval `[start, stop)` as returned by the free/busy query
(`calendar_search.py`, `busy_slots`).  Python parses each to a pair of
datetimes; here a pair of minute timestamps. -/
structure BusyInterval where
  start : Int
  stop : Int
deriving DecidableEq

/-- Clock hour of a timestamp, `datetime.hour` in Python. -/
def hourOf (t : Int) : Int := t % 1440 / 60

/-- `(current_time + timedelta(days=1)).replace(hour=9, minute=0, second=0)`
from `calendar_search.py` line 88: the start of the next day at 09:00. -/
def nextDayNine (t : Int) : Int := ((t + 1440) / 1440) * 1440 + 540

/-- The overlap test of `calendar_search.py` line 74:
`current_time < slot_end and potential_end_time > slot_start`, with
`potential_end_time = current_time + duration`. -/
def overlapsBusy (dur t : Int) (b : BusyInterval) : Bool :=
  decide (t < b.stop) && decide (t + dur > b.start)

/-- The `for slot in busy_slots` scan (lines 69-77): the first busy interval,
in list order, that overlaps the probe `[t, t + dur)`. -/
def findOverlap (busy : List BusyInterval) (dur t : Int) : Option BusyInterval :=
  busy.find? (overlapsBusy dur t)

/-- Outcome of one iteration of the `while` loop body: either the probe is free
and `_run` returns the slot, or the cursor moves to a new position. -/
inductive ScanOutcome where
  | found (s e : Int)
  | next (t : Int)
deriving DecidableEq

/-- One iteration of the `while current_time < search_end` body of
`FindFreeSlotsTool._run` (lines 62-91).  Inside business hours the busy list
is scanned; on the first overlap the cursor is set to that interval's end
(line 76) and then — because the loop body falls through to the increment
section with no `continue` — the increment of lines 87-91 is applied on top.
Outside business hours only the increment section runs. -/
def scanStep (busy : List BusyInterval) (dur t : Int) : ScanOutcome :=
  if 9 ≤ hourOf t ∧ hourOf t < 17 then
    match findOverlap busy dur t with
    | none => ScanOutcome.found t (t + dur)
    | some b =>
        if 17 ≤ hourOf b.stop then ScanOutcome.next (nextDayNine b.stop)
        else ScanOutcome.next (b.stop + dur)
  else
    if 17 ≤ hourOf t then ScanOutcome.next (nextDayNine t)
    else ScanOutcome.next (t + dur)

/-- The `while current_time < search_end` loop of `FindFreeSlotsTool._run`,
with an explicit fuel argument because the Python loop is not structurally
recursive (and, for non-positive durations, does not terminate at all).
`none` means the fuel ran out before the loop finished; `some none` is the
"No free slots found in the next 7 days." error return of line 93;
`some (some (s, e))` is the slot returned at lines 81-84. -/
def searchLoop (busy : List BusyInterval) (searchEnd dur : Int) :
    Nat → Int → Option (Option (Int × Int))
  | 0, _ => none
  | fuel+1, t =>
    if t < searchEnd then
      match scanStep busy dur t with
      | ScanOutcome.found s e => some (some (s, e))
      | ScanOutcome.next t2 => searchLoop busy searchEnd dur fuel t2
    else
      some none

/-- The 7-day search horizon (`timedelta(days=7)`, line 59) in minutes. -/
def horizonMinutes : Int := 10080

/-- `FindFreeSlotsTool._run` after credential handling and the free/busy query:
the scan starts at the parsed `start_time` and ends `7` days later.
`10081` units of fuel cover one iteration per minute of the horizon plus the
final loop-condition check, which suffices whenever the cursor advances by at
least one minute per iteration. -/
def findFreeSlots (busy : List BusyInterval) (startT dur : Int) (fuel : Nat) :
    Option (Option (Int × Int)) :=
  searchLoop busy (startT + horizonMinutes) dur fuel startT

/-- Arguments of the control tool `create_pending_interview` as read by
`call_create_pending_interview` (app/agent.py lines 146-158).  `none` models an
absent key; time values are the parsed datetimes in minutes. -/
structure CPIArgs where
  start_time : Option Int
  interview_time : Option Int
  end_time : Option Int
  interview_duration_minutes : Option Int
  tool_call_id : Option String
deriving DecidableEq

/-- Observable outcome of `call_create_pending_interview`: the `success` flag
and optional `error` key of the JSON result, the ledger entry persisted by
`crud.create_pending_interview` (its proposed start and end times) if any, and
the `tool_call_id` attached to the returned `ToolMessage`. -/
structure CPIResult where
  success : Bool
  errorMsg : Option String
  created : Option (Int × Int)
  tool_call_id : String
deriving DecidableEq

/-- `call_create_pending_interview` (app/agent.py lines 138-188).  The start
time is `args.get("interview_time") or args.get("start_time")`; the end time is
`args["end_time"]` when that key is present, else start plus
`args["interview_duration_minutes"]` when that key is present; a missing pair
raises `ValueError`, which the enclosing `except` converts to a
`success: false` result with an `error` key and no ledger write.  The returned
message carries `args.get("tool_call_id", "custom_tool_0")` as its id. -/
def call_create_pending_interview (a : CPIArgs) : CPIResult :=
  let tcid := a.tool_call_id.getD "custom_tool_0"
  match a.interview_time <|> a.start_time with
  | none =>
      { success := false
        errorMsg := some "Missing start_time or interview_time argument"
        created := none
        tool_call_id := tcid }
  | some s =>
    match a.end_time with
    | some e => { success := true, errorMsg := none, created := some (s, e), tool_call_id := tcid }
    | none =>
      match a.interview_duration_minutes with
      | some m =>
          { success := true, errorMsg := none, created := some (s, s + m), tool_call_id := tcid }
      | none =>
          { success := false
            errorMsg := some "Missing end_time or interview_duration_minutes argument"
            created := none
            tool_call_id := tcid }

/-- One tool call requested by the reasoning step: name, correlation id
(`tool_call["id"]`), and arguments. -/
structure ToolCallRequest where
  name : String
  callId : String
  args : CPIArgs
deriving DecidableEq

/-- Content of one result `ToolMessage` produced by the dispatcher. -/
inductive MsgContent where
  | controlResult (r : CPIResult)
  | toolResult (name : String)
  | toolMissing (name : String)
deriving DecidableEq

/-- A result message: content plus the `tool_call_id` it carries. -/
structure ToolResultMsg where
  content : MsgContent
  tool_call_id : String
deriving DecidableEq

/-- The names of the registered action tools (app/agent.py lines 21-25). -/
def registeredToolNames : List String :=
  ["send_gmail", "create_calendar_event", "find_free_calendar_slot"]

/-- Dispatch of a single requested tool call inside `call_tool`
(app/agent.py lines 104-133).  The reserved name `create_pending_interview`
goes to the control handler, whose whole body sits under a catch-all
`except`, so it always yields a `ToolMessage` — one whose id comes from
`args.get("tool_call_id", "custom_tool_0")`.  A registered tool is run via
`tool.invoke(args)` (line 118) and answered with `tool_call["id"]`; but that
invocation sits under no `try` in `call_tool`, and it can raise — LangChain
re-raises pydantic validation errors for schema-invalid arguments, and
`get_google_creds()` runs before the `try` inside each tool's `_run` — which
aborts the dispatch; the parameter `invokeRaises` says which invocations
raise, and `none` models the escaping exception.  An unknown name builds a
"not found" message, also with `tool_call["id"]`. -/
def dispatchToolCall (invokeRaises : ToolCallRequest → Bool) (tc : ToolCallRequest) :
    Option ToolResultMsg :=
  if tc.name = "create_pending_interview" then
    let r := call_create_pending_interview tc.args
    some { content := MsgContent.controlResult r, tool_call_id := r.tool_call_id }
  else if tc.name ∈ registeredToolNames then
    if invokeRaises tc then none
    else some { content := MsgContent.toolResult tc.name, tool_call_id := tc.callId }
  else
    some { content := MsgContent.toolMissing tc.name, tool_call_id := tc.callId }

/-- `call_tool` (app/agent.py lines 97-136) on a message carrying tool calls:
one result message per requested call, in request order — unless one of the
registered-tool invocations raises, in which case the exception propagates
out of `call_tool` before its message list is returned, so no result messages
are delivered for the batch at all (`none`). -/
def call_tool (invokeRaises : ToolCallRequest → Bool) :
    List ToolCallRequest → Option (List ToolResultMsg)
  | [] => some []
  | tc :: rest =>
    match dispatchToolCall invokeRaises tc with
    | none => none
    | some msg =>
      match call_tool invokeRaises rest with
      | none => none
      | some msgs => some (msg :: msgs)

/-- Result of one `approve_interview` request (app/main.py lines 190-204):
the ledger entry status after the call (`none` when the entry does not exist),
whether `run_approval_workflow` was handed to the background task queue, and
whether the request succeeded (no `HTTPException`). -/
structure ApproveOutcome where
  entryStatus : Option String
  workflowLaunched : Bool
  httpOk : Bool
deriving DecidableEq

/-- The approval endpoint `approve_interview`: 404 when the entry is missing,
400 (no write, no task) when its status is not `pending`, otherwise the status
is set to `approved` and `run_approval_workflow` is queued. -/
def approve_interview (entry : Option String) : ApproveOutcome :=
  match entry with
  | none => { entryStatus := none, workflowLaunched := false, httpOk := false }
  | some st =>
    if st ≠ "pending" then { entryStatus := some st, workflowLaunched := false, httpOk := false }
    else { entryStatus := some "approved", workflowLaunched := true, httpOk := true }

/-- Two sequential `approve_interview` requests against the same ledger entry,
the second seeing the status left by the first. -/
def approveTwice (st0 : Option String) : ApproveOutcome × ApproveOutcome :=
  let r1 := approve_interview st0
  let r2 := approve_interview r1.entryStatus
  (r1, r2)

/-- Outcome of invoking `CreateCalendarEventTool` from the approval workflow.
`CreateCalendarEventTool._run` (app/tools/calendar_tool.py lines 31-81)
catches `HttpError` and every other exception and returns a JSON string with
an `"error"` key, and returns `{"error": ...}` JSON when credentials are
missing, so a booking failure normally surfaces as `errorResult`; `raised`
models an exception escaping the tool invocation itself. -/
inductive CalendarOutcome where
  | succeeded (meetLink : Option String)
  | errorResult (msg : String)
  | raised
deriving DecidableEq

/-- Outcome of invoking `SendGmailTool` from the approval workflow. -/
inductive GmailOutcome where
  | sent
  | raised
deriving DecidableEq

/-- Observable effects of one `run_approval_workflow` run: which tools were
invoked and the final ledger status. -/
structure WorkflowRun where
  calendarInvoked : Bool
  gmailInvoked : Bool
  finalStatus : String
deriving DecidableEq

/-- `run_approval_workflow` (app/agent.py lines 212-300).  The entry and
candidate are re-checked (lines 222-229); then `CreateCalendarEventTool` is
invoked.  If that invocation raises, the outer `except` sets the status to
`error` and the email is never sent.  If it returns a result string — error
JSON included — the code only probes it for a `meet_link` (line 246-251,
falling back to a placeholder), invokes `SendGmailTool`, and sets the status
to `scheduled`; an exception from the email step is caught by the same outer
`except`, which sets `error`. -/
def run_approval_workflow (status : String) (candidateFound : Bool)
    (cal : CalendarOutcome) (mail : GmailOutcome) : WorkflowRun :=
  if status ≠ "approved" then
    { calendarInvoked := false, gmailInvoked := false, finalStatus := status }
  else if !candidateFound then
    { calendarInvoked := false, gmailInvoked := false, finalStatus := status }
  else
    match cal with
    | CalendarOutcome.raised =>
        { calendarInvoked := true, gmailInvoked := false, finalStatus := "error" }
    | _ =>
      match mail with
      | GmailOutcome.raised =>
          { calendarInvoked := true, gmailInvoked := true, finalStatus := "error" }
      | GmailOutcome.sent =>
          { calendarInvoked := true, gmailInvoked := true, finalStatus := "scheduled" }

/-! Helper lemmas about the slot scan. -/

lemma nextDayNine_gt (t : Int) : t < nextDayNine t := by
  unfold nextDayNine
  omega

lemma scanStep_advance {busy : List BusyInterval} {dur t t2 : Int} (hd : 0 < dur)
    (h : scanStep busy dur t = ScanOutcome.next t2) : t < t2 := by
  unfold scanStep at h
  split at h
  · split at h
    · simp at h
    · rename_i b heq
      have hb : t < b.stop := by
        unfold findOverlap at heq
        have hp := List.find?_some heq
        unfold overlapsBusy at hp
        simp only [Bool.and_eq_true, decide_eq_true_eq] at hp
        exact hp.1
      split at h
      · injection h with h2
        have := nextDayNine_gt b.stop
        omega
      · injection h with h2
        omega
  · split at h
    · injection h with h2
      have := nextDayNine_gt t
      omega
    · injection h with h2
      omega

lemma scanStep_found_inv {busy : List BusyInterval} {dur t s e : Int}
    (h : scanStep busy dur t = ScanOutcome.found s e) :
    s = t ∧ e = t + dur ∧ 9 ≤ hourOf t ∧ hourOf t < 17 ∧ findOverlap busy dur t = none := by
  unfold scanStep at h
  split at h
  case isTrue hh =>
    split at h
    · rename_i heq
      injection h with h1 h2
      exact ⟨h1.symm, h2.symm, hh.1, hh.2, heq⟩
    · rename_i b heq
      split at h <;> simp at h
  case isFalse hh =>
    split at h <;> simp at h

lemma findOverlap_none_nowhere {busy : List BusyInterval} {dur t : Int}
    (h : findOverlap busy dur t = none) :
    ∀ b ∈ busy, ¬(t < b.stop ∧ t + dur > b.start) := by
  intro b hb
  unfold findOverlap at h
  have hp := List.find?_eq_none.mp h b hb
  unfold overlapsBusy at hp
  simp only [Bool.and_eq_true, decide_eq_true_eq, not_and] at hp
  intro hc
  exact hp hc.1 hc.2

lemma searchLoop_found_sound {busy : List BusyInterval} {searchEnd dur : Int} (hd : 0 < dur) :
    ∀ (fuel : Nat) (t s e : Int),
      searchLoop busy searchEnd dur fuel t = some (some (s, e)) →
      t ≤ s ∧ s < searchEnd ∧ e = s + dur ∧ 9 ≤ hourOf s ∧ hourOf s < 17 ∧
        ∀ b ∈ busy, ¬(s < b.stop ∧ s + dur > b.start) := by
  intro fuel
  induction fuel with
  | zero =>
    intro t s e h
    simp [searchLoop] at h
  | succ n ih =>
    intro t s e h
    unfold searchLoop at h
    split at h
    case isTrue hlt =>
      cases hstep : scanStep busy dur t with
      | found s1 e1 =>
        rw [hstep] at h
        simp only [Option.some.injEq, Prod.mk.injEq] at h
        obtain ⟨hs, he⟩ := h
        subst hs; subst he
        obtain ⟨h1, h2, h3, h4, h5⟩ := scanStep_found_inv hstep
        subst h1; subst h2
        exact ⟨le_refl _, hlt, rfl, h3, h4, findOverlap_none_nowhere h5⟩
      | next t2 =>
        rw [hstep] at h
        have hadv := scanStep_advance hd hstep
        obtain ⟨h1, h2, h3, h4, h5, h6⟩ := ih t2 s e h
        exact ⟨by omega, h2, h3, h4, h5, h6⟩
    case isFalse hlt =>
      simp at h

lemma searchLoop_total {busy : List BusyInterval} {searchEnd dur : Int} (hd : 0 < dur) :
    ∀ (fuel : Nat) (t : Int), (searchEnd - t).toNat < fuel →
      (searchLoop busy searchEnd dur fuel t).isSome = true := by
  intro fuel
  induction fuel with
  | zero =>
    intro t h
    omega
  | succ n ih =>
    intro t hfuel
    unfold searchLoop
    split
    case isTrue hlt =>
      cases hstep : scanStep busy dur t with
      | found s1 e1 => simp
      | next t2 =>
        have hadv := scanStep_advance hd hstep
        exact ih t2 (by omega)
    case isFalse hlt => simp

lemma searchLoop_found_lt {busy : List BusyInterval} {searchEnd dur : Int} :
    ∀ (fuel : Nat) (t s e : Int),
      searchLoop busy searchEnd dur fuel t = some (some (s, e)) → s < searchEnd := by
  intro fuel
  induction fuel with
  | zero =>
    intro t s e h
    simp [searchLoop] at h
  | succ n ih =>
    intro t s e h
    unfold searchLoop at h
    split at h
    case isTrue hlt =>
      cases hstep : scanStep busy dur t with
      | found s1 e1 =>
        rw [hstep] at h
        simp only [Option.some.injEq, Prod.mk.injEq] at h
        obtain ⟨hs, he⟩ := h
        obtain ⟨h1, _, _, _, _⟩ := scanStep_found_inv hstep
        omega
      | next t2 =>
        rw [hstep] at h
        exact ih t2 s e h
    case isFalse hlt =>
      simp at h

lemma cpi_tool_call_id (a : CPIArgs) :
    (call_create_pending_interview a).tool_call_id = a.tool_call_id.getD "custom_tool_0" := by
  obtain ⟨ast, ait, aet, adm, atc⟩ := a
  cases ait <;> cases ast <;> cases aet <;> cases adm <;> rfl

lemma call_tool_some_length {inv : ToolCallRequest → Bool} :
    ∀ (calls : List ToolCallRequest) (msgs : List ToolResultMsg),
      call_tool inv calls = some msgs → msgs.length = calls.length := by
  intro calls
  induction calls with
  | nil =>
    intro msgs h
    simp only [call_tool, Option.some.injEq] at h
    subst h
    rfl
  | cons a rest ih =>
    intro msgs h
    unfold call_tool at h
    cases hd : dispatchToolCall inv a with
    | none => rw [hd] at h; simp at h
    | some m =>
      rw [hd] at h
      cases ht : call_tool inv rest with
      | none => rw [ht] at h; simp at h
      | some ms =>
        rw [ht] at h
        simp only [Option.some.injEq] at h
        subst h
        simp [ih ms ht]

lemma call_tool_some_mem {inv : ToolCallRequest → Bool} :
    ∀ (calls : List ToolCallRequest) (msgs : List ToolResultMsg) (tc : ToolCallRequest),
      tc ∈ calls → call_tool inv calls = some msgs →
      ∃ msg, dispatchToolCall inv tc = some msg ∧ msg ∈ msgs := by
  intro calls
  induction calls with
  | nil =>
    intro msgs tc hm
    exact absurd hm (List.not_mem_nil tc)
  | cons a rest ih =>
    intro msgs tc hm h
    unfold call_tool at h
    cases hd : dispatchToolCall inv a with
    | none => rw [hd] at h; simp at h
    | some m =>
      rw [hd] at h
      cases ht : call_tool inv rest with
      | none => rw [ht] at h; simp at h
      | some ms =>
        rw [ht] at h
        simp only [Option.some.injEq] at h
        subst h
        rcases List.mem_cons.mp hm with rfl | hm2
        · exact ⟨m, hd, List.mem_cons_self m ms⟩
        · obtain ⟨msg, h1, h2⟩ := ih ms tc hm2 ht
          exact ⟨msg, h1, List.mem_cons_of_mem m h2⟩

lemma dispatch_some_id {inv : ToolCallRequest → Bool} {tc : ToolCallRequest}
    {msg : ToolResultMsg} (h : dispatchToolCall inv tc = some msg) :
    msg.tool_call_id =
      (if tc.name = "create_pending_interview"
        then tc.args.tool_call_id.getD "custom_tool_0" else tc.callId) := by
  unfold dispatchToolCall at h
  by_cases hc : tc.name = "create_pending_interview"
  · rw [if_pos hc] at h
    rw [if_pos hc]
    simp only [Option.some.injEq] at h
    subst h
    exact cpi_tool_call_id tc.args
  · rw [if_neg hc] at h
    rw [if_neg hc]
    split at h
    · split at h
      · simp at h
      · simp only [Option.some.injEq] at h
        subst h
        rfl
    · simp only [Option.some.injEq] at h
      subst h
      rfl

lemma registered_not_control {tc : ToolCallRequest} (hr : tc.name ∈ registeredToolNames) :
    ¬ tc.name = "create_pending_interview" :=
  fun hc => absurd (hc ▸ hr) (by decide)

lemma dispatch_raises_none {inv : ToolCallRequest → Bool} {tc : ToolCallRequest}
    (hr : tc.name ∈ registeredToolNames) (hi : inv tc = true) :
    dispatchToolCall inv tc = none := by
  unfold dispatchToolCall
  rw [if_neg (registered_not_control hr), if_pos hr, if_pos hi]

lemma call_tool_raises_none {inv : ToolCallRequest → Bool} :
    ∀ (calls : List ToolCallRequest) (tc : ToolCallRequest),
      tc ∈ calls → tc.name ∈ registeredToolNames → inv tc = true →
      call_tool inv calls = none := by
  intro calls
  induction calls with
  | nil =>
    intro tc hm
    exact absurd hm (List.not_mem_nil tc)
  | cons a rest ih =>
    intro tc hm hr hi
    unfold call_tool
    rcases List.mem_cons.mp hm with rfl | hm2
    · rw [dispatch_raises_none hr hi]
    · cases hd : dispatchToolCall inv a with
      | none => rfl
      | some m => rw [ih tc hm2 hr hi]

/-! Claim theorems. -/

/-- C1: the claim states that in `run_approval_workflow` a failing booking
action — whether `create_calendar_event` raises or returns an error result —
means `send_gmail` is never invoked and the entry ends in `error`, never
`scheduled`.  The code honours this only for a raised exception.  When the
booking tool returns an `{"error": ...}` JSON result — and its `_run`
converts every internal failure into exactly such a result — the workflow
never inspects it beyond probing for a meet link, still sends the
notification email, and marks the entry `scheduled`.  The first conjunct
evaluates the embedded workflow at that failing input; the second shows the
raised-exception branch behaving as the claim demands. -/
theorem C1_error_result_still_notifies :
    run_approval_workflow "approved" true
        (CalendarOutcome.errorResult "Could not get Google credentials.") GmailOutcome.sent
      = ⟨true, true, "scheduled"⟩ ∧
    run_approval_workflow "approved" true CalendarOutcome.raised GmailOutcome.sent
      = ⟨true, false, "error"⟩ := by
  exact ⟨rfl, rfl⟩

/-- C2: the claim states that on finding an overlap the scan restarts from the
busy interval end, so that with busy `[09:00, 10:00)` and `[11:00, 11:30)` on
day 1, duration 60 and search start 08:00, the returned slot is 10:00-11:00.
In the code the loop body falls through from the busy-jump to the increment
section, so after a jump the cursor additionally advances by the duration:
the feasible 10:00-11:00 gap (shown free and inside business hours by the
last three conjuncts) is skipped and the tool returns 12:30-13:30. -/
theorem C2_example_skips_earliest_gap :
    findFreeSlots [⟨540, 600⟩, ⟨660, 690⟩] 480 60 10081 = some (some (750, 810)) ∧
    findOverlap [⟨540, 600⟩, ⟨660, 690⟩] 60 600 = none ∧
    9 ≤ hourOf 600 ∧ hourOf 600 < 17 := by
  exact ⟨by decide, by decide, by decide, by decide⟩

/-- C3: whenever `FindFreeSlotsTool._run` returns a slot `(s, e)` for a
positive duration, then `e = s + dur`, the half-open interval `[s, s + dur)`
overlaps no busy interval (overlap meaning `s < busy.stop` and
`s + dur > busy.start`), the start falls within business hours, and the start
is no earlier than the search start. -/
theorem C3_returned_slot_sound (busy : List BusyInterval) (startT dur s e : Int) (fuel : Nat)
    (hd : 0 < dur) (h : findFreeSlots busy startT dur fuel = some (some (s, e))) :
    e = s + dur ∧ (∀ b ∈ busy, ¬(s < b.stop ∧ s + dur > b.start)) ∧
    9 ≤ hourOf s ∧ hourOf s < 17 ∧ startT ≤ s := by
  unfold findFreeSlots at h
  obtain ⟨h1, _, h3, h4, h5, h6⟩ := searchLoop_found_sound hd fuel startT s e h
  exact ⟨h3, h6, h4, h5, h1⟩

/-- C3 witness: busy `[09:00, 10:00)`, search start 08:00, duration 60; the
tool returns the slot 11:00-12:00, which satisfies every conjunct. -/
theorem C3_returned_slot_sound_witness :
    (0 : Int) < 60 ∧
    findFreeSlots [⟨540, 600⟩] 480 60 10081 = some (some (660, 720)) ∧
    ((720 : Int) = 660 + 60 ∧
      (∀ b ∈ [(⟨540, 600⟩ : BusyInterval)], ¬((660 : Int) < b.stop ∧ (660 : Int) + 60 > b.start)) ∧
      9 ≤ hourOf 660 ∧ hourOf 660 < 17 ∧ (480 : Int) ≤ 660) := by
  refine ⟨by decide, by decide, ?_⟩
  exact C3_returned_slot_sound [⟨540, 600⟩] 480 60 660 720 10081 (by decide) (by decide)

/-- C4: two sequential triggers of the approval endpoint against the same
ledger entry starting in `pending`: the first performs the single transition
to `approved` and queues the approval workflow; the second finds the entry no
longer `pending`, writes nothing, queues nothing, and is rejected (HTTP 400),
so the workflow is launched at most once. -/
theorem C4_double_trigger_single_transition :
    approveTwice (some "pending")
      = (⟨some "approved", true, true⟩, ⟨some "approved", false, false⟩) := by
  decide

/-- C5: for every parsed time `tm` and integer duration `m`, the duration
argument shape (`interview_time` plus `interview_duration_minutes`) and the
explicit shape (`start_time` plus `end_time = tm + m`) produce ledger entries
with identical proposed start and end times. -/
theorem C5_argument_shapes_agree (tm m : Int) :
    (call_create_pending_interview ⟨none, some tm, none, some m, none⟩).created
      = some (tm, tm + m) ∧
    (call_create_pending_interview ⟨some tm, none, some (tm + m), none, none⟩).created
      = some (tm, tm + m) := by
  exact ⟨rfl, rfl⟩

/-- C6 counterexample: three concrete runs refuting the claim, one per forced
amendment.  (i) With no busy intervals, search start 09:00 and duration
20000, the returned slot ends at 20540, far beyond the horizon 540 + 10080,
so the returned interval is not contained in the horizon.  (ii) With duration
-60 — accepted by the schema — busy `[900, 1000)` and search start 970, the
returned slot starts at 940, before the search start, so containment of the
returned interval in `[search_start, ...)` also fails at its lower end.
(iii) With duration 0 and the single busy interval `[540, 20160)`, which
contains every minute of the horizon `[540, 10620)` (540 ≤ 540 and
540 + 10080 ≤ 20160) and in particular all its business hours, the finder
still returns the zero-length slot `[540, 540)` instead of reporting
failure. -/
theorem C6_counterexample :
    (findFreeSlots [] 540 20000 10081 = some (some (540, 20540)) ∧
      540 + horizonMinutes < 20540) ∧
    (findFreeSlots [⟨900, 1000⟩] 970 (-60) 10081 = some (some (940, 880)) ∧
      (940 : Int) < 970) ∧
    (findFreeSlots [⟨540, 20160⟩] 540 0 10081 = some (some (540, 540)) ∧
      (540 : Int) ≤ 540 ∧ 540 + horizonMinutes ≤ 20160) := by
  exact ⟨⟨by decide, by decide⟩, ⟨by decide, by decide⟩, ⟨by decide, by decide, by decide⟩⟩

/-- C6 amended: (i) for a positive duration, busy intervals fully covering
business hours throughout the 7-day horizon make `FindFreeSlotsTool._run`
report the no-free-slots error rather than any slot; (ii) for a positive
duration, any returned slot starts within
`[search_start, search_start + 7 days)`; (iii) for every duration the schema
accepts, a returned slot still starts before `search_start + 7 days` — the
loop guard compares the cursor against the horizon — but the returned end is
not clamped to the horizon, and with non-positive durations the start may
precede the search start and full coverage no longer forces the error, as
the counterexample shows. -/
theorem C6_coverage_and_horizon (busy : List BusyInterval) (startT dur s e : Int) (fuel : Nat) :
    (0 < dur →
      (∀ t : Int, startT ≤ t → t < startT + horizonMinutes → 9 ≤ hourOf t → hourOf t < 17 →
        ∃ b ∈ busy, b.start ≤ t ∧ t < b.stop) →
      findFreeSlots busy startT dur 10081 = some none) ∧
    (0 < dur → findFreeSlots busy startT dur fuel = some (some (s, e)) →
      startT ≤ s ∧ s < startT + horizonMinutes) ∧
    (findFreeSlots busy startT dur fuel = some (some (s, e)) →
      s < startT + horizonMinutes) := by
  refine ⟨?_, ?_, ?_⟩
  · intro hd hcov
    unfold findFreeSlots
    have hfe : (startT + horizonMinutes - startT).toNat < 10081 := by
      unfold horizonMinutes; omega
    have htot := @searchLoop_total busy (startT + horizonMinutes) dur hd 10081 startT hfe
    cases hre : searchLoop busy (startT + horizonMinutes) dur 10081 startT with
    | none => rw [hre] at htot; simp at htot
    | some r =>
      cases r with
      | none => rfl
      | some p =>
        obtain ⟨s1, e1⟩ := p
        obtain ⟨h1, h2, _, h4, h5, h6⟩ := searchLoop_found_sound hd 10081 startT s1 e1 hre
        obtain ⟨b, hb, hb1, hb2⟩ := hcov s1 h1 h2 h4 h5
        exact absurd ⟨hb2, by omega⟩ (h6 b hb)
  · intro hd h
    unfold findFreeSlots at h
    obtain ⟨h1, h2, _, _, _, _⟩ := searchLoop_found_sound hd fuel startT s e h
    exact ⟨h1, h2⟩
  · intro h
    unfold findFreeSlots at h
    exact searchLoop_found_lt fuel startT s e h

/-- C6 witness: a busy interval covering the entire horizon with a positive
duration makes the finder report the no-free-slots error; and the slot the
code returns for the schema-accepted duration -60 still starts before the
horizon end. -/
theorem C6_coverage_witness :
    ((0 : Int) < 60 ∧ findFreeSlots [⟨0, 20160⟩] 0 60 10081 = some none) ∧
    (findFreeSlots [⟨900, 1000⟩] 970 (-60) 10081 = some (some (940, 880)) ∧
      (940 : Int) < 970 + horizonMinutes) := by
  refine ⟨⟨by decide, ?_⟩, ⟨by decide, ?_⟩⟩
  · refine (C6_coverage_and_horizon [⟨0, 20160⟩] 0 60 0 0 10081).1 (by decide) ?_
    intro t h1 h2 _ _
    have h2a : t < 10080 := by unfold horizonMinutes at h2; omega
    refine ⟨⟨0, 20160⟩, by simp, h1, ?_⟩
    show t < (20160 : Int)
    omega
  · exact (C6_coverage_and_horizon [⟨900, 1000⟩] 970 (-60) 940 880 10081).2.2 (by decide)

/-- C7 counterexample: the argument schema accepts any integer
`duration_minutes`; with duration 0 and the cursor at 08:00 (outside business
hours) the loop body leaves the cursor unchanged, so the cursor does not
strictly advance on that iteration and the scan loop can run forever,
contradicting the claim for such schema-accepted inputs. -/
theorem C7_counterexample :
    scanStep [] 0 480 = ScanOutcome.next 480 ∧ ¬((480 : Int) < 480) := by
  exact ⟨by decide, by decide⟩

/-- C7 amended: for a strictly positive `duration_minutes` (the schema default
is 60) every iteration of the scan loop strictly advances the cursor, and the
loop terminates: `10081` units of fuel — one iteration per minute of the
7-day horizon plus the final check — always suffice for `searchLoop` to
return a value. -/
theorem C7_positive_duration_terminates
    (busy : List BusyInterval) (dur startT t t2 : Int) (hd : 1 ≤ dur) :
    (scanStep busy dur t = ScanOutcome.next t2 → t < t2) ∧
    (searchLoop busy (startT + horizonMinutes) dur 10081 startT).isSome = true := by
  constructor
  · intro h
    exact scanStep_advance (by omega) h
  · refine searchLoop_total (by omega) 10081 startT ?_
    unfold horizonMinutes
    omega

/-- C7 witness: the default duration 60 at a concrete cursor position and a
concrete search start. -/
theorem C7_positive_duration_witness :
    (1 : Int) ≤ 60 ∧
    ((scanStep [] 60 480 = ScanOutcome.next 540 → (480 : Int) < 540) ∧
      (searchLoop [] (0 + horizonMinutes) 60 10081 0).isSome = true) := by
  exact ⟨by decide, C7_positive_duration_terminates [] 60 0 480 540 (by decide)⟩

/-- C8 counterexample: arguments `{start_time: T, end_time: T}` are accepted —
the control tool reports success and persists a ledger entry whose proposed
end time equals its proposed start time, so `end > start` does not hold for
every persisted entry. -/
theorem C8_counterexample :
    (call_create_pending_interview ⟨some 540, none, some 540, none, none⟩).success = true ∧
    (call_create_pending_interview ⟨some 540, none, some 540, none, none⟩).created
      = some (540, 540) ∧
    ¬((540 : Int) < 540) := by
  exact ⟨by decide, by decide, by decide⟩

/-- C8 amended: every ledger entry persisted by the control tool carries
exactly the argument times — the proposed start is
`interview_time or start_time`, and the proposed end is the explicit
`end_time` when that key is present, else start plus
`interview_duration_minutes` — and the tool reports success.  No `end > start`
(and no timezone-awareness) validation is performed anywhere on this path, so
entries with `end ≤ start` can be persisted. -/
theorem C8_persisted_entry_times (a : CPIArgs) (s e : Int)
    (h : (call_create_pending_interview a).created = some (s, e)) :
    (call_create_pending_interview a).success = true ∧
    (a.interview_time <|> a.start_time) = some s ∧
    (a.end_time = some e ∨
      (a.end_time = none ∧ a.interview_duration_minutes = some (e - s))) := by
  obtain ⟨ast, ait, aet, adm, atc⟩ := a
  cases ait <;> cases ast <;> cases aet <;> cases adm <;>
    simp_all [call_create_pending_interview] <;> omega

/-- C8 witness: the explicit shape with start 0 and end 60. -/
theorem C8_persisted_entry_times_witness :
    (call_create_pending_interview ⟨some 0, none, some 60, none, none⟩).created
      = some ((0 : Int), (60 : Int)) ∧
    ((call_create_pending_interview ⟨some 0, none, some 60, none, none⟩).success = true ∧
      ((Option.none <|> some (0 : Int)) = some (0 : Int)) ∧
      ((some (60 : Int) = some (60 : Int)) ∨
        (some (60 : Int) = (none : Option Int) ∧
          (none : Option Int) = some ((60 : Int) - 0)))) := by
  refine ⟨by decide, ?_⟩
  exact C8_persisted_entry_times ⟨some 0, none, some 60, none, none⟩ 0 60 (by decide)

/-- C9: when the arguments carry neither `start_time` nor `interview_time`,
or neither `end_time` nor `interview_duration_minutes`, the control tool
returns a structured failure — `success: false` together with an `error`
message — and persists no ledger entry; being a total function of its
arguments (the Python handler catches the raised `ValueError`), it raises
nothing to its caller. -/
theorem C9_missing_arguments_fail_closed (a : CPIArgs)
    (h : (a.interview_time = none ∧ a.start_time = none) ∨
      (a.end_time = none ∧ a.interview_duration_minutes = none)) :
    (call_create_pending_interview a).success = false ∧
    ((call_create_pending_interview a).errorMsg).isSome = true ∧
    (call_create_pending_interview a).created = none := by
  obtain ⟨ast, ait, aet, adm, atc⟩ := a
  cases ait <;> cases ast <;> cases aet <;> cases adm <;>
    simp_all [call_create_pending_interview]

/-- C9 witness: the empty argument set, which misses both pairs. -/
theorem C9_missing_arguments_witness :
    (((none : Option Int) = none ∧ (none : Option Int) = none) ∨
      ((none : Option Int) = none ∧ (none : Option Int) = none)) ∧
    ((call_create_pending_interview ⟨none, none, none, none, none⟩).success = false ∧
      ((call_create_pending_interview ⟨none, none, none, none, none⟩).errorMsg).isSome = true ∧
      (call_create_pending_interview ⟨none, none, none, none, none⟩).created = none) := by
  refine ⟨Or.inl ⟨rfl, rfl⟩, ?_⟩
  exact C9_missing_arguments_fail_closed ⟨none, none, none, none, none⟩ (Or.inl ⟨rfl, rfl⟩)

/-- C10 counterexample: a batch with one `create_pending_interview` call whose
correlation id is `call_abc123` and whose arguments carry no `tool_call_id`
key, with no registered-tool invocation raising: the single result message
carries the constant `custom_tool_0`, not the request id, contradicting the
claim for the control tool. -/
theorem C10_counterexample :
    (call_tool (fun _ => false) [⟨"create_pending_interview", "call_abc123",
        ⟨some 540, none, some 600, none, none⟩⟩]).map (List.map ToolResultMsg.tool_call_id)
      = some ["custom_tool_0"] ∧
    "custom_tool_0" ≠ "call_abc123" := by
  exact ⟨by decide, by decide⟩

/-- C10 amended: when `call_tool` returns a message batch — that is, when no
registered-tool invocation raises — it contains exactly one result message
per requested call, in request order, and each call's message carries the
request correlation id, except the control tool's, which instead carries
`args.tool_call_id` when present and the constant `custom_tool_0` otherwise,
matching the request id only if the id is echoed inside the arguments.  When
a registered-tool invocation for some call of the batch does raise (e.g.
schema-invalid arguments), the exception aborts the whole dispatch and no
result messages are delivered at all. -/
theorem C10_one_result_per_call (inv : ToolCallRequest → Bool)
    (calls : List ToolCallRequest) (msgs : List ToolResultMsg) (tc : ToolCallRequest)
    (hm : tc ∈ calls) :
    (call_tool inv calls = some msgs →
      msgs.length = calls.length ∧
      ∃ msg, dispatchToolCall inv tc = some msg ∧ msg ∈ msgs ∧
        msg.tool_call_id =
          (if tc.name = "create_pending_interview"
            then tc.args.tool_call_id.getD "custom_tool_0" else tc.callId)) ∧
    (tc.name ∈ registeredToolNames → inv tc = true → call_tool inv calls = none) := by
  constructor
  · intro h
    obtain ⟨msg, h1, h2⟩ := call_tool_some_mem calls msgs tc hm h
    exact ⟨call_tool_some_length calls msgs h, msg, h1, h2, dispatch_some_id h1⟩
  · intro hr hi
    exact call_tool_raises_none calls tc hm hr hi

/-- C10 witness: a one-element batch calling the registered `send_gmail`
tool, once with a non-raising invocation — one result carrying the request
id — and once with a raising one, aborting the batch with no results. -/
theorem C10_one_result_witness :
    (⟨"send_gmail", "id1", ⟨none, none, none, none, none⟩⟩ : ToolCallRequest)
      ∈ [(⟨"send_gmail", "id1", ⟨none, none, none, none, none⟩⟩ : ToolCallRequest)] ∧
    call_tool (fun _ => false) [⟨"send_gmail", "id1", ⟨none, none, none, none, none⟩⟩]
      = some [⟨MsgContent.toolResult "send_gmail", "id1"⟩] ∧
    ([(⟨MsgContent.toolResult "send_gmail", "id1"⟩ : ToolResultMsg)].length
        = [(⟨"send_gmail", "id1", ⟨none, none, none, none, none⟩⟩ : ToolCallRequest)].length ∧
      ∃ msg, dispatchToolCall (fun _ => false)
          ⟨"send_gmail", "id1", ⟨none, none, none, none, none⟩⟩ = some msg ∧
        msg ∈ [(⟨MsgContent.toolResult "send_gmail", "id1"⟩ : ToolResultMsg)] ∧
        msg.tool_call_id =
          (if ("send_gmail" : String) = "create_pending_interview"
            then (⟨none, none, none, none, none⟩ : CPIArgs).tool_call_id.getD "custom_tool_0"
            else "id1")) ∧
    call_tool (fun _ => true) [⟨"send_gmail", "id1", ⟨none, none, none, none, none⟩⟩]
      = none := by
  refine ⟨by decide, by decide, ?_, ?_⟩
  · exact (C10_one_result_per_call (fun _ => false)
      [⟨"send_gmail", "id1", ⟨none, none, none, none, none⟩⟩]
      [⟨MsgContent.toolResult "send_gmail", "id1"⟩]
      ⟨"send_gmail", "id1", ⟨none, none, none, none, none⟩⟩
      (by decide)).1 (by decide)
  · exact (C10_one_result_per_call (fun _ => true)
      [⟨"send_gmail", "id1", ⟨none, none, none, none, none⟩⟩] []
      ⟨"send_gmail", "id1", ⟨none, none, none, none, none⟩⟩
      (by decide)).2 (by decide) rfl

end HrAgent
